import Mathlib

/-!
# Verification of the PDF outline classification engine

Shallow embedding of the classification core of `pdf_parser.py`:
whitespace normalisation, the noise (watermark) filter, graphical-document
detection, title extraction, the two heading-levelling strategies with the
date- and numbering-regex models, and the outline de-duplication/merge pass.

Python strings are modelled as `String` (operated on through `List Char`),
font sizes as `Int` (the source rounds them to integers), box coordinates
and direction components as `ℚ`.
-/

/-! ## Python string primitives -/

/-- The ASCII whitespace characters recognised by Python's `\s`, `str.split()`
and `str.strip()`. -/
def pySpace (c : Char) : Bool :=
  c = ' ' || c = '\t' || c = '\n' || c = '\r' || c = '\x0b' || c = '\x0c'

/-- Accumulator-based splitting of a character list into maximal runs of
non-whitespace characters (the behaviour of Python's `str.split()`). -/
def pyWordsAux : List Char → List Char → List (List Char)
  | [], acc => if acc.isEmpty then [] else [acc.reverse]
  | c :: cs, acc =>
    if pySpace c then
      if acc.isEmpty then pyWordsAux cs [] else acc.reverse :: pyWordsAux cs []
    else pyWordsAux cs (c :: acc)

/-- Python's `s.split()`: whitespace-separated words, empties discarded. -/
def pyWords (s : String) : List String :=
  (pyWordsAux s.toList []).map fun l => String.mk l

/-- `len(s.split())`, the word count used throughout the classifier. -/
def wordCount (s : String) : Nat :=
  (pyWords s).length

/-- `clean_text` from the source: collapse internal whitespace runs to single
spaces and trim both ends; equal to `" ".join(s.split())`. -/
def clean_text (s : String) : String :=
  String.intercalate " " (pyWords s)

/-- Python's `s.strip()`: drop leading and trailing whitespace. -/
def pyStrip (s : String) : String :=
  String.mk (((s.toList.dropWhile pySpace).reverse.dropWhile pySpace).reverse)

/-- A string containing at least one non-whitespace character. -/
def nonBlank (s : String) : Bool :=
  !(s.toList.dropWhile pySpace).isEmpty

/-- `s.strip().startswith("&")` from the continuation-merge rule: the first
non-whitespace character is an ampersand (trailing strip cannot change the
first character, so only the leading strip matters). -/
def stripStartsAmp (s : String) : Bool :=
  match s.toList.dropWhile pySpace with
  | c :: _ => c = '&'
  | [] => false

/-! ## Model of the date regular expression

`re.match` of
`\b(Month)\s+\d{1,2},\s+\d{4}\b | \b\d{1,2}\s+(Month)\s+\d{4}\b`
(case-insensitive).  Since the regex is anchored at the start and the
alternations/quantifiers leave no slack (whitespace, digits and the comma
are disjoint character classes, and `\d{1,2}`/`\d{4}` followed by a
non-digit requirement force the digit runs to be maximal), matchability is
equivalent to the deterministic maximal-munch parse implemented here. -/

/-- The month-name alternatives of the date regex, lowercased. -/
def monthNames : List String :=
  ["january", "february", "march", "april", "may", "june", "july",
   "august", "september", "october", "november", "december",
   "jan", "feb", "mar", "apr", "jun", "jul", "aug", "sep", "oct", "nov", "dec"]

/-- Strip a (lowercase) pattern from the front of a list, comparing
case-insensitively; `none` if it is not a prefix. -/
def dropPrefixCI : List Char → List Char → Option (List Char)
  | [], l => some l
  | _ :: _, [] => none
  | p :: ps, c :: cs => if c.toLower = p then dropPrefixCI ps cs else none

/-- Python's `\w` (ASCII part): letters, digits, underscore. -/
def isWordChar (c : Char) : Bool :=
  c.isAlpha || c.isDigit || c = '_'

/-- `\s+` with maximal munch: requires at least one whitespace character and
consumes the whole run. -/
def wsPlus (l : List Char) : Option (List Char) :=
  match l with
  | c :: rest => if pySpace c then some (rest.dropWhile pySpace) else none
  | [] => none

/-- `\d{4}\b` at the end of the date pattern: the digit run is exactly four
long and the following character (if any) is not a word character. -/
def yearEnd (l : List Char) : Bool :=
  (l.takeWhile Char.isDigit).length = 4 &&
    (match l.dropWhile Char.isDigit with
     | [] => true
     | c :: _ => !isWordChar c)

/-- `\d{1,2},` : a one-or-two digit day followed directly by a comma. -/
def dayComma (l : List Char) : Option (List Char) :=
  let n := (l.takeWhile Char.isDigit).length
  if n = 1 ∨ n = 2 then
    match l.dropWhile Char.isDigit with
    | ',' :: rest => some rest
    | _ => none
  else none

/-- First date alternative: `Month \s+ day , \s+ year`. -/
def dateAlt1 (l : List Char) : Bool :=
  monthNames.any fun m =>
    match dropPrefixCI m.toList l with
    | none => false
    | some r1 =>
      match wsPlus r1 with
      | none => false
      | some r2 =>
        match dayComma r2 with
        | none => false
        | some r3 =>
          match wsPlus r3 with
          | none => false
          | some r4 => yearEnd r4

/-- Second date alternative: `day \s+ Month \s+ year`. -/
def dateAlt2 (l : List Char) : Bool :=
  let n := (l.takeWhile Char.isDigit).length
  (n = 1 || n = 2) &&
    (match wsPlus (l.dropWhile Char.isDigit) with
     | none => false
     | some r1 =>
       monthNames.any fun m =>
         match dropPrefixCI m.toList r1 with
         | none => false
         | some r2 =>
           match wsPlus r2 with
           | none => false
           | some r3 => yearEnd r3)

/-- `date_pattern.match(s)` succeeds (the source applies it to stripped text). -/
def dateMatch (s : String) : Bool :=
  dateAlt1 s.toList || dateAlt2 s.toList

/-! ## Model of the numbering regular expression

`re.match` of `^\s*([A-Z]|\d{1,2}(\.\d{1,2})*)\.?\s+`, returning the number
of dots inside group 1 when the match succeeds.  As with the date pattern,
backtracking cannot rescue a failed maximal-munch parse: shortening a digit
run leaves a digit in a position where `\.` or `\s` is required, and
stopping the `(\.\d{1,2})*` loop early leaves `\s+` facing a digit. -/

/-- `\.?\s+` finishing the numbering pattern: either whitespace directly, or
a period followed by whitespace. -/
def dotWs (l : List Char) : Bool :=
  match l with
  | [] => false
  | c :: rest =>
    if pySpace c then true
    else if c = '.' then
      match rest with
      | d :: _ => pySpace d
      | [] => false
    else false

/-- The `(\.\d{1,2})*` loop of the numbering pattern, entered after a digit
run; counts iterations and finishes with `\.?\s+`.  Structural recursion on
a fuel argument (each iteration consumes at least two characters, so any
fuel of at least the list length suffices and the `0` case is unreachable
from `numberMatch`). -/
def numLoop : Nat → List Char → Nat → Option Nat
  | 0, _, _ => none
  | fuel + 1, l, dots =>
    match l with
    | '.' :: rest =>
      if (rest.takeWhile Char.isDigit).isEmpty then
        if dotWs l then some dots else none
      else
        if (rest.takeWhile Char.isDigit).length ≤ 2 then
          numLoop fuel (rest.dropWhile Char.isDigit) (dots + 1)
        else none
    | _ => if dotWs l then some dots else none

/-- `number_pattern.match(text)`: `some d` when the text starts (after
optional whitespace) with a single capital letter or a dotted numeric
sequence, optionally followed by a period, then whitespace; `d` is the
number of dots in the captured group. -/
def numberMatch (l : List Char) : Option Nat :=
  let l1 := l.dropWhile pySpace
  match l1 with
  | [] => none
  | c :: rest =>
    if 'A' ≤ c ∧ c ≤ 'Z' then
      if dotWs rest then some 0 else none
    else if c.isDigit then
      if (l1.takeWhile Char.isDigit).length ≤ 2 then
        numLoop l1.length (l1.dropWhile Char.isDigit) 0
      else none
    else none

/-! ## Data model -/

/-- Bounding box `(x0, y0, x1, y1)`; only `y0` (the top, `bbox[1]` in the
source) is used by the classifier. -/
structure BBox where
  x0 : ℚ
  y0 : ℚ
  x1 : ℚ
  y1 : ℚ
deriving DecidableEq

/-- One extracted text line, the `TextBlock` namedtuple of the source. -/
structure TextBlock where
  text : String
  size : Int
  font : String
  bbox : BBox
  page : Nat
  dir : Option (ℚ × ℚ)
deriving DecidableEq

/-- One outline entry `{level, text, page}`. -/
structure OutlineItem where
  level : String
  text : String
  page : Nat
deriving DecidableEq

/-- The classifier's result `{title, outline}`. -/
structure DocResult where
  title : String
  outline : List OutlineItem
deriving DecidableEq

/-! ## Small list helpers mirroring Python built-ins -/

/-- Python's `max` on a list of integers (only ever applied to non-empty
lists in the source; the `[]` case is junk). -/
def listMax : List Int → Int
  | [] => 0
  | x :: xs => xs.foldl max x

/-- Distinct elements of a list in order of first occurrence, with the
already-seen elements carried in an accumulator (the iteration order of a
Python `set`/`Counter` built by insertion). -/
def firstOccsAux (seen : List Int) : List Int → List Int
  | [] => []
  | x :: xs =>
    if x ∈ seen then firstOccsAux seen xs
    else x :: firstOccsAux (x :: seen) xs

/-- Distinct elements of a list in order of first occurrence. -/
def firstOccs (l : List Int) : List Int :=
  firstOccsAux [] l

/-- `Counter(l).most_common(1)[0][0]`: the most frequent element, ties broken
by first occurrence (Python's `Counter`/`heapq.nlargest` are stable).
Only applied to non-empty lists; the `[]` case is junk. -/
def mostCommon (l : List Int) : Int :=
  match firstOccs l with
  | [] => 0
  | c :: cs => cs.foldl (fun best x => if l.count best < l.count x then x else best) c

/-- `sorted(set(l), reverse=True)`: distinct values, descending. -/
def sortedDistinctDesc (l : List Int) : List Int :=
  List.insertionSort (fun a b => b ≤ a) (firstOccs l)

/-! ## NoiseFilter (`filter_non_content`) -/

/-- The rotation test `block.dir and abs(block.dir[0]) < 0.99` (a present
direction vector that is not nearly horizontal). -/
def dirNonHorizontal (b : TextBlock) : Bool :=
  match b.dir with
  | some d => decide (|d.1| < mkRat 99 100)
  | none => false

/-- `first_page_blocks`, the page-0 blocks (computed identically in
`filter_non_content` and `classify_headings`). -/
def firstPageBlocks (blocks : List TextBlock) : List TextBlock :=
  blocks.filter fun b => b.page = 0

/-- `max_size`, the maximal font size among page-0 blocks. -/
def page0MaxSize (blocks : List TextBlock) : Int :=
  listMax ((firstPageBlocks blocks).map fun b => b.size)

/-- The page-0 blocks of maximal size (the protected/title lines). -/
def maxSizePage0Blocks (blocks : List TextBlock) : List TextBlock :=
  (firstPageBlocks blocks).filter fun b => b.size = page0MaxSize blocks

/-- `protected_texts`: the texts of the largest page-0 blocks (empty when
page 0 has no blocks, matching the `if first_page_blocks:` guard). -/
def protectedTexts (blocks : List TextBlock) : List String :=
  if (firstPageBlocks blocks).isEmpty then []
  else (maxSizePage0Blocks blocks).map fun b => b.text

/-- `texts_to_remove`: the texts of unprotected, non-horizontal blocks. -/
def removedTexts (blocks : List TextBlock) : List String :=
  (blocks.filter fun b => ¬ b.text ∈ protectedTexts blocks ∧ dirNonHorizontal b).map
    fun b => b.text

/-- `filter_non_content(blocks, doc)` from the source: protect the texts of
the largest page-0 blocks, mark the text of every unprotected rotated block,
and drop every block whose text was marked (or return the input unchanged
when nothing was marked). -/
def filter_non_content (blocks : List TextBlock) : List TextBlock :=
  if blocks.isEmpty then []
  else if (removedTexts blocks).isEmpty then blocks
  else blocks.filter fun b => ¬ b.text ∈ removedTexts blocks

/-! ## Document type detection -/

/-- Step 1 of `classify_headings`: a document is graphical when it has one
page, fewer than 40 blocks, and no (or proportionally fewer than 10%)
paragraph-length blocks of more than 15 words.  The division is reached only
when `paragraph_blocks` is non-empty (Python short-circuits `or`), hence
only on non-empty `blocks`. -/
def is_graphical_doc (page_count : Nat) (blocks : List TextBlock) : Bool :=
  if page_count = 1 then
    let paragraph_blocks := blocks.filter fun b => 15 < wordCount b.text
    decide (blocks.length < 40 ∧
      (paragraph_blocks.isEmpty ∨
        (paragraph_blocks.length : ℚ) / (blocks.length : ℚ) < 1 / 10))
  else false

/-! ## Title extraction (Step 2, lines 147-154) -/

/-- The title lines (the maximal-size page-0 blocks) sorted by ascending
`bbox.y0` (stable, like Python's `sorted` with key `b.bbox[1]`). -/
def titleBlocksSorted (blocks : List TextBlock) : List TextBlock :=
  List.insertionSort (fun a b => a.bbox.y0 ≤ b.bbox.y0) (maxSizePage0Blocks blocks)

/-- `title_parts`: the texts of the sorted title lines (empty when page 0 has
no blocks, matching the `if first_page_blocks:` guard). -/
def titleParts (blocks : List TextBlock) : List String :=
  if (firstPageBlocks blocks).isEmpty then []
  else (titleBlocksSorted blocks).map fun b => b.text

/-- `doc_title`: the space-joined title parts, or the `"Title Not Found"`
default when page 0 has no blocks. -/
def docTitle (blocks : List TextBlock) : String :=
  if (firstPageBlocks blocks).isEmpty then "Title Not Found"
  else String.intercalate " " ((titleBlocksSorted blocks).map fun b => b.text)

/-! ## Heading levelling -/

/-- `unique_sizes = sorted(set(sizes), reverse=True)`. -/
def uniqueSizes (blocks : List TextBlock) : List Int :=
  sortedDistinctDesc (blocks.map fun b => b.size)

/-- The dictionary `{size: "H1".."H3"}` built from the first three entries of
a (distinct, descending) size list; sizes beyond the third get no level. -/
def sizeToLevel (sizes : List Int) (s : Int) : Option String :=
  match sizes with
  | [] => none
  | [a] => if s = a then some "H1" else none
  | [a, b] => if s = a then some "H1" else if s = b then some "H2" else none
  | a :: b :: c :: _ =>
    if s = a then some "H1"
    else if s = b then some "H2"
    else if s = c then some "H3"
    else none

/-- The body of Strategy A's loop for one block: skip title texts, unmapped
sizes and dates; collapse `"Label: long sentence"` to `"Label:"` when the
label is short; keep the block only if the (possibly collapsed) text has
fewer than 10 words. -/
def strategyAItem (title_parts : List String) (unique_sizes : List Int)
    (b : TextBlock) : Option OutlineItem :=
  if b.text ∈ title_parts then none
  else
    match sizeToLevel unique_sizes b.size with
    | none => none
    | some lvl =>
      if dateMatch (pyStrip b.text) then none
      else
        let text_to_add :=
          if 10 ≤ wordCount b.text ∧ ':' ∈ b.text.toList then
            let potential_heading := String.mk (b.text.toList.takeWhile fun c => c ≠ ':')
            if wordCount potential_heading < 5 then potential_heading ++ ":" else b.text
          else b.text
        if wordCount text_to_add < 10 then
          some { level := lvl, text := text_to_add, page := b.page }
        else none

/-- Strategy A (`1 < |unique_sizes| ≤ 6`), iterating the blocks in order. -/
def strategyA (blocks : List TextBlock) (title_parts : List String)
    (unique_sizes : List Int) : List OutlineItem :=
  blocks.filterMap (strategyAItem title_parts unique_sizes)

/-- `para_sizes`: the sizes of the paragraph-length (>20-word) blocks. -/
def paraSizes (blocks : List TextBlock) : List Int :=
  (blocks.filter fun b => 20 < wordCount b.text).map fun b => b.size

/-- Strategy B's body size: the most common size among >20-word blocks, else
the smallest size overall, else 0. -/
def bodySize (blocks : List TextBlock) (unique_sizes : List Int) : Int :=
  match paraSizes blocks with
  | [] =>
    match unique_sizes.getLast? with
    | some s => s
    | none => 0
  | p :: ps => mostCommon (p :: ps)

/-- Strategy B's heading candidates: not a title text, larger than the body
size, under 20 words, not a date. -/
def headingCandidates (blocks : List TextBlock) (title_parts : List String)
    (body_size : Int) : List TextBlock :=
  blocks.filter fun b =>
    ¬ b.text ∈ title_parts ∧ body_size < b.size ∧ wordCount b.text < 20 ∧
      dateMatch (pyStrip b.text) = false

/-- The distinct candidate sizes, descending, for Strategy B's level map. -/
def headingSizes (blocks : List TextBlock) (title_parts : List String)
    (unique_sizes : List Int) : List Int :=
  sortedDistinctDesc
    ((headingCandidates blocks title_parts (bodySize blocks unique_sizes)).map
      fun b => b.size)

/-- The candidate ordering `key=lambda b: (b.page, b.bbox[1])`. -/
def pageYOrder (a b : TextBlock) : Prop :=
  a.page < b.page ∨ (a.page = b.page ∧ a.bbox.y0 ≤ b.bbox.y0)

instance : DecidableRel pageYOrder := fun a b => by
  unfold pageYOrder; infer_instance

/-- The body of Strategy B's loop for one candidate: start from the
size-derived level, override it with `H<min(dots+1, 3)>` when the text
carries a numbering prefix, and emit only when a level resulted. -/
def strategyBItem (heading_sizes : List Int) (b : TextBlock) : Option OutlineItem :=
  let level := sizeToLevel heading_sizes b.size
  let level :=
    match numberMatch b.text.toList with
    | some dots => some ("H" ++ toString (min (dots + 1) 3))
    | none => level
  match level with
  | some lvl => some { level := lvl, text := b.text, page := b.page }
  | none => none

/-- Strategy B (`|unique_sizes| ≤ 1` or `> 6`). -/
def strategyB (blocks : List TextBlock) (title_parts : List String)
    (unique_sizes : List Int) : List OutlineItem :=
  let body_size := bodySize blocks unique_sizes
  let hc := headingCandidates blocks title_parts body_size
  let heading_sizes := sortedDistinctDesc (hc.map fun b => b.size)
  (List.insertionSort pageYOrder hc).filterMap (strategyBItem heading_sizes)

/-! ## Outline cleanup (Step 3) -/

/-- The de-duplication pass: keep the first occurrence of each `(text, page)`
identifier, tracked in the `seen` set. -/
def dedupAux (seen : List (String × Nat)) : List OutlineItem → List OutlineItem
  | [] => []
  | i :: rest =>
    if (i.text, i.page) ∈ seen then dedupAux seen rest
    else i :: dedupAux ((i.text, i.page) :: seen) rest

/-- `final_outline`: the outline with later `(text, page)` duplicates dropped. -/
def dedupOutline (l : List OutlineItem) : List OutlineItem :=
  dedupAux [] l

/-- The continuation-merge condition: same page and level as the previous
kept item, and the trimmed text starts with `&`. -/
def contMergeable (prev cur : OutlineItem) : Bool :=
  cur.page = prev.page && cur.level = prev.level && stripStartsAmp cur.text

/-- Appending a continuation line's text: `f"{prev} {cur}"`. -/
def extendText (prev cur : OutlineItem) : OutlineItem :=
  { prev with text := prev.text ++ " " ++ cur.text }

/-- The continuation-merge walk, carrying the last kept item. -/
def mergeCont (prev : OutlineItem) : List OutlineItem → List OutlineItem
  | [] => [prev]
  | cur :: rest =>
    if contMergeable prev cur then mergeCont (extendText prev cur) rest
    else prev :: mergeCont cur rest

/-- `merged_outline`: stitch ampersand continuation lines onto their
predecessor. -/
def mergeContinuations : List OutlineItem → List OutlineItem
  | [] => []
  | x :: xs => mergeCont x xs

/-- The whole OutlineMerger: de-duplicate, then merge continuations. -/
def outlineMerge (l : List OutlineItem) : List OutlineItem :=
  mergeContinuations (dedupOutline l)

/-! ## The classifier -/

/-- The relation sorting blocks by size, descending (`reverse=True`). -/
def sizeDescOrder (a b : TextBlock) : Prop :=
  b.size ≤ a.size

instance : DecidableRel sizeDescOrder := fun a b => by
  unfold sizeDescOrder; infer_instance

/-- `classify_headings(doc, blocks)` from the source; `page_count` stands for
`len(doc)`, the only use the function makes of `doc`. -/
def classify_headings (page_count : Nat) (blocks : List TextBlock) : DocResult :=
  if blocks.isEmpty then { title := "Title Not Found", outline := [] }
  else if is_graphical_doc page_count blocks then
    match List.insertionSort sizeDescOrder blocks with
    | [] => { title := "", outline := [] }
    | largest_block :: _ =>
      { title := ""
        outline := [{ level := "H1", text := clean_text largest_block.text,
                      page := largest_block.page }] }
  else
    let outline :=
      if 1 < (uniqueSizes blocks).length ∧ (uniqueSizes blocks).length ≤ 6 then
        strategyA blocks (titleParts blocks) (uniqueSizes blocks)
      else
        strategyB blocks (titleParts blocks) (uniqueSizes blocks)
    { title := clean_text (docTitle blocks), outline := outlineMerge outline }

/-! ## Spec-side comparison definitions

These restate conditions in the words of the specification/claims, to be
compared with the definitions taken from the source. -/

/-- The heading depth named by a level string (`"H1" ↦ 1`, …). -/
def levelNum (s : String) : Nat :=
  if s = "H1" then 1 else if s = "H2" then 2 else if s = "H3" then 3 else 0

/-- The graphical-document condition in the claim's words: page count 1,
fewer than 40 blocks, and no block of more than 15 words or such blocks
making up less than a tenth of all blocks. -/
def graphicalCondC3 (page_count : Nat) (blocks : List TextBlock) : Prop :=
  page_count = 1 ∧ blocks.length < 40 ∧
    ((∀ b ∈ blocks, wordCount b.text ≤ 15) ∨
      ((blocks.filter fun b => 15 < wordCount b.text).length : ℚ) /
        (blocks.length : ℚ) < 1 / 10)

/-- A text protected by the noise filter, in the claim's words: the text of
some page-0 block whose size is the maximal page-0 size. -/
def protectedTextC4 (blocks : List TextBlock) (t : String) : Prop :=
  ∃ b ∈ blocks, b.page = 0 ∧ b.size = page0MaxSize blocks ∧ b.text = t

instance (blocks : List TextBlock) (t : String) :
    Decidable (protectedTextC4 blocks t) := by
  unfold protectedTextC4; infer_instance

/-- A text marked for removal, in the claim's words: the text of some
unprotected block whose direction is present and not nearly horizontal. -/
def markedTextC4 (blocks : List TextBlock) (t : String) : Prop :=
  ∃ b ∈ blocks, b.text = t ∧ ¬ protectedTextC4 blocks b.text ∧
    dirNonHorizontal b = true

instance (blocks : List TextBlock) (t : String) :
    Decidable (markedTextC4 blocks t) := by
  unfold markedTextC4; infer_instance

/-! ## Exception-freedom model (claim C9)

`Option`-threaded duplicates of the two core functions that return `none`
exactly where the Python code would raise: `max()`/`most_common(1)[0]` and
`[0]`/`[-1]` indexing on an empty sequence, and division by a zero length.
Proving them equal to `some` of the pure functions shows no raising branch
is reachable. -/

/-- `max(l)`: raises (returns `none`) on an empty sequence. -/
def listMaxE : List Int → Option Int
  | [] => none
  | x :: xs => some (xs.foldl max x)

/-- `Counter(l).most_common(1)[0][0]`: the indexing raises on an empty
counter. -/
def mostCommonE (l : List Int) : Option Int :=
  match l with
  | [] => none
  | _ => some (mostCommon l)

/-- The protected-text computation with its `max()` call made fallible. -/
def protectedTextsE (blocks : List TextBlock) : Option (List String) :=
  if (firstPageBlocks blocks).isEmpty then some []
  else do
    let max_size ← listMaxE ((firstPageBlocks blocks).map fun b => b.size)
    some (((firstPageBlocks blocks).filter fun b => b.size = max_size).map
      fun b => b.text)

/-- `filter_non_content` with its `max()` call made fallible. -/
def filter_non_contentE (blocks : List TextBlock) : Option (List TextBlock) :=
  if blocks.isEmpty then some []
  else do
    let protected_texts ← protectedTextsE blocks
    let texts_to_remove :=
      (blocks.filter fun b => ¬ b.text ∈ protected_texts ∧ dirNonHorizontal b).map
        fun b => b.text
    if texts_to_remove.isEmpty then some blocks
    else some (blocks.filter fun b => ¬ b.text ∈ texts_to_remove)

/-- Document-type detection with the division made fallible (it is evaluated
only when `paragraph_blocks` is non-empty, which forces `blocks` non-empty). -/
def is_graphical_docE (page_count : Nat) (blocks : List TextBlock) : Option Bool :=
  if page_count = 1 then
    let paragraph_blocks := blocks.filter fun b => 15 < wordCount b.text
    if blocks.length < 40 then
      if paragraph_blocks.isEmpty then some true
      else if blocks.length = 0 then none
      else some (decide ((paragraph_blocks.length : ℚ) / (blocks.length : ℚ) < 1 / 10))
    else some false
  else some false

/-- Title extraction with its `max()` call made fallible. -/
def docTitleE (blocks : List TextBlock) : Option String :=
  if (firstPageBlocks blocks).isEmpty then some "Title Not Found"
  else do
    let max_size ← listMaxE ((firstPageBlocks blocks).map fun b => b.size)
    let tb := (firstPageBlocks blocks).filter fun b => b.size = max_size
    some (String.intercalate " "
      ((List.insertionSort (fun a b => a.bbox.y0 ≤ b.bbox.y0) tb).map fun b => b.text))

/-- Strategy B's body size with `most_common(1)[0]` and `[-1]` made fallible. -/
def bodySizeE (blocks : List TextBlock) (unique_sizes : List Int) : Option Int :=
  if (paraSizes blocks).isEmpty then
    if unique_sizes.isEmpty then some 0 else unique_sizes.getLast?
  else mostCommonE (paraSizes blocks)

/-- Strategy B threading the fallible body size. -/
def strategyBE (blocks : List TextBlock) (title_parts : List String)
    (unique_sizes : List Int) : Option (List OutlineItem) := do
  let body_size ← bodySizeE blocks unique_sizes
  let hc := headingCandidates blocks title_parts body_size
  let heading_sizes := sortedDistinctDesc (hc.map fun b => b.size)
  some ((List.insertionSort pageYOrder hc).filterMap (strategyBItem heading_sizes))

/-- `classify_headings` with every potentially raising operation made
fallible: the graphical path's `[0]` indexing, the title `max()`, and
Strategy B's body-size computation. -/
def classify_headingsE (page_count : Nat) (blocks : List TextBlock) : Option DocResult :=
  if blocks.isEmpty then some { title := "Title Not Found", outline := [] }
  else do
    let g ← is_graphical_docE page_count blocks
    if g then do
      let largest_block ← (List.insertionSort sizeDescOrder blocks).head?
      some { title := ""
             outline := [{ level := "H1", text := clean_text largest_block.text,
                           page := largest_block.page }] }
    else do
      let title ← docTitleE blocks
      let outline ←
        if 1 < (uniqueSizes blocks).length ∧ (uniqueSizes blocks).length ≤ 6 then
          some (strategyA blocks (titleParts blocks) (uniqueSizes blocks))
        else strategyBE blocks (titleParts blocks) (uniqueSizes blocks)
      some { title := clean_text title, outline := outlineMerge outline }

/-! ## Concrete inputs used by counterexamples and witnesses -/

/-- A bounding box at the origin. -/
def bbox0 : BBox := ⟨0, 0, 0, 0⟩

/-- A bounding box whose top is at vertical position `y` (the other
coordinates are unused by the classifier). -/
def bboxAt (y : ℚ) : BBox := ⟨0, y, 0, y⟩

/-- The three blocks of the spec's end-to-end example (claim C1). -/
def c1Blocks : List TextBlock :=
  [{ text := "Annual Report", size := 24, font := "F", bbox := bboxAt 0,
     page := 0, dir := some (1, 0) },
   { text := "1. Introduction", size := 12, font := "F", bbox := bboxAt 10,
     page := 0, dir := some (1, 0) },
   { text := "2. Methods", size := 12, font := "F", bbox := bboxAt 20,
     page := 0, dir := some (1, 0) }]

/-- Candidate items on which the outline merger fails to be idempotent: the
continuation merge of the first two creates a duplicate of the third. -/
def c2Items : List OutlineItem :=
  [⟨"H1", "A", 0⟩, ⟨"H1", "& B", 0⟩, ⟨"H1", "A & B", 0⟩]

/-- A benign candidate list for the amended idempotence claim. -/
def c2WitnessItems : List OutlineItem :=
  [⟨"H1", "Research", 0⟩, ⟨"H1", "& Development", 0⟩, ⟨"H2", "Staff", 1⟩]

/-- The protected horizontal page-0 title block of claim C4's scenario. -/
def c4Title : TextBlock :=
  { text := "Big Title", size := 30, font := "F", bbox := bboxAt 0,
    page := 0, dir := some (1, 0) }

/-- The watermark scenario of claim C4: a protected page-0 title and a
rotated "CONFIDENTIAL" stamp on pages 0 and 3. -/
def c4Scenario : List TextBlock :=
  [c4Title,
   { text := "CONFIDENTIAL", size := 10, font := "F", bbox := bboxAt 5,
     page := 0, dir := some (mkRat 1 2, mkRat 87 100) },
   { text := "CONFIDENTIAL", size := 10, font := "F", bbox := bboxAt 5,
     page := 3, dir := some (mkRat 1 2, mkRat 87 100) }]

/-- A single poster-like block (witness input for the amended claim C3). -/
def c3WitnessBlocks : List TextBlock :=
  [{ text := "Poster Headline", size := 40, font := "F", bbox := bboxAt 0,
     page := 0, dir := some (1, 0) }]

/-- A candidate with a depth-2 numbering prefix. -/
def c5Num : TextBlock :=
  { text := "2.1 Overview", size := 12, font := "F", bbox := bboxAt 10,
    page := 0, dir := none }

/-- A candidate with a depth-4 numbering prefix (capped at H3). -/
def c5Deep : TextBlock :=
  { text := "2.1.4.9 Deep", size := 13, font := "F", bbox := bboxAt 20,
    page := 0, dir := none }

/-- Blocks for the Strategy B numbering witnesses: a 21-word paragraph fixing
the body size and two numbered candidates. -/
def c5Blocks : List TextBlock :=
  [{ text := "w w w w w w w w w w w w w w w w w w w w w", size := 10,
     font := "F", bbox := bboxAt 50, page := 0, dir := none },
   c5Num, c5Deep]

/-- The two largest Strategy B candidates of `c10Blocks`. -/
def c10Alpha : TextBlock :=
  { text := "Alpha", size := 20, font := "F", bbox := bboxAt 10, page := 0, dir := none }

/-- See `c10Alpha`. -/
def c10Beta : TextBlock :=
  { text := "Beta", size := 18, font := "F", bbox := bboxAt 20, page := 0, dir := none }

/-- A numbered candidate whose size is outside the top three. -/
def c10Delta : TextBlock :=
  { text := "3.2 Delta", size := 11, font := "F", bbox := bboxAt 40, page := 0, dir := none }

/-- An unnumbered candidate whose size is outside the top three. -/
def c10Plain : TextBlock :=
  { text := "plain small", size := 11, font := "F", bbox := bboxAt 50, page := 0, dir := none }

/-- Blocks with four distinct candidate sizes for claim C10: size 11 is not
among the top three candidate sizes. -/
def c10Blocks : List TextBlock :=
  [{ text := "w w w w w w w w w w w w w w w w w w w w w", size := 10,
     font := "F", bbox := bboxAt 90, page := 0, dir := none },
   c10Alpha, c10Beta,
   { text := "Gamma", size := 16, font := "F", bbox := bboxAt 30, page := 0, dir := none },
   c10Delta, c10Plain]

/-- Two same-size page-0 blocks sharing the same vertical position: their
title order depends on the input order (claim C7's tie case). -/
def c7BlockA : TextBlock :=
  { text := "A", size := 10, font := "F", bbox := bbox0, page := 0, dir := none }

/-- See `c7BlockA`. -/
def c7BlockB : TextBlock :=
  { text := "B", size := 10, font := "F", bbox := bbox0, page := 0, dir := none }

/-- The larger block of the Strategy A monotonicity witness. -/
def c6Top : TextBlock :=
  { text := "Top Heading", size := 24, font := "F", bbox := bboxAt 0,
    page := 0, dir := none }

/-- The smaller block of the Strategy A monotonicity witness. -/
def c6Sub : TextBlock :=
  { text := "Sub Heading", size := 16, font := "F", bbox := bboxAt 10,
    page := 0, dir := none }

/-- Blocks with two heading sizes for the Strategy A monotonicity witness. -/
def c6Blocks : List TextBlock :=
  [c6Top, c6Sub]

/-- Two same-size page-0 blocks with distinct vertical positions (witness
input for the amended claim C7). -/
def c7WitnessP : TextBlock :=
  { text := "Upper", size := 10, font := "F", bbox := bboxAt 0, page := 0, dir := none }

/-- See `c7WitnessP`. -/
def c7WitnessQ : TextBlock :=
  { text := "Lower", size := 10, font := "F", bbox := bboxAt 7, page := 0, dir := none }

/-! ## Generic lemmas about the helper functions -/

/-- The seed of a left fold by `max` bounds below its result. -/
theorem le_foldl_max (xs : List Int) (x : Int) : x ≤ xs.foldl max x := by
  induction xs generalizing x with
  | nil => simp
  | cons y ys ih =>
    calc x ≤ max x y := le_max_left _ _
    _ ≤ ys.foldl max (max x y) := ih _

/-- Every list element bounds below a left fold by `max` over the list. -/
theorem mem_le_foldl_max (xs : List Int) (x a : Int) (ha : a ∈ xs) :
    a ≤ xs.foldl max x := by
  induction xs generalizing x with
  | nil => cases ha
  | cons y ys ih =>
    rcases List.mem_cons.mp ha with rfl | h
    · exact le_trans (le_max_right x a) (le_foldl_max ys _)
    · exact ih _ h

/-- A left fold by `max` yields its seed or a list element. -/
theorem foldl_max_mem (xs : List Int) (x : Int) :
    xs.foldl max x = x ∨ xs.foldl max x ∈ xs := by
  induction xs generalizing x with
  | nil => left; rfl
  | cons y ys ih =>
    rcases ih (max x y) with h | h
    · rcases max_choice x y with hxy | hxy
      · left; rw [List.foldl_cons, h, hxy]
      · right; rw [List.foldl_cons, h, hxy]; exact List.mem_cons_self _ _
    · right; exact List.mem_cons_of_mem _ h

/-- `listMax` bounds every element of the list. -/
theorem le_listMax {l : List Int} {a : Int} (ha : a ∈ l) : a ≤ listMax l := by
  cases l with
  | nil => cases ha
  | cons x xs =>
    rcases List.mem_cons.mp ha with rfl | h
    · exact le_foldl_max xs a
    · exact mem_le_foldl_max xs x a h

/-- `listMax` of a non-empty list is one of its elements. -/
theorem listMax_mem {l : List Int} (h : l ≠ []) : listMax l ∈ l := by
  cases l with
  | nil => exact absurd rfl h
  | cons x xs =>
    rcases foldl_max_mem xs x with h1 | h1
    · show xs.foldl max x ∈ x :: xs
      rw [h1]; exact List.mem_cons_self _ _
    · exact List.mem_cons_of_mem _ h1

/-- `listMax` is invariant under permutation. -/
theorem listMax_perm {l l' : List Int} (h : l.Perm l') : listMax l = listMax l' := by
  cases l with
  | nil => rw [h.nil_eq.symm]
  | cons x xs =>
    have hne : (x :: xs) ≠ ([] : List Int) := by simp
    have hne' : l' ≠ [] := by
      intro hcon
      rw [hcon] at h
      exact hne h.eq_nil
    exact le_antisymm
      (le_listMax (h.mem_iff.mp (listMax_mem hne)))
      (le_listMax (h.mem_iff.mpr (listMax_mem hne')))

/-- Elements produced by `firstOccsAux` come from the traversed list. -/
theorem mem_of_mem_firstOccsAux :
    ∀ (xs seen : List Int) (a : Int), a ∈ firstOccsAux seen xs → a ∈ xs := by
  intro xs
  induction xs with
  | nil => intro seen a h; simp [firstOccsAux] at h
  | cons x xs ih =>
    intro seen a h
    by_cases hx : x ∈ seen
    · simp only [firstOccsAux, if_pos hx] at h
      exact List.mem_cons_of_mem _ (ih seen a h)
    · simp only [firstOccsAux, if_neg hx] at h
      rcases List.mem_cons.mp h with rfl | h2
      · exact List.mem_cons_self _ _
      · exact List.mem_cons_of_mem _ (ih _ a h2)

/-- `firstOccsAux` never emits an element of its `seen` accumulator. -/
theorem not_seen_of_mem_firstOccsAux :
    ∀ (xs seen : List Int) (a : Int), a ∈ firstOccsAux seen xs → a ∉ seen := by
  intro xs
  induction xs with
  | nil => intro seen a h; simp [firstOccsAux] at h
  | cons x xs ih =>
    intro seen a h
    by_cases hx : x ∈ seen
    · simp only [firstOccsAux, if_pos hx] at h
      exact ih seen a h
    · simp only [firstOccsAux, if_neg hx] at h
      rcases List.mem_cons.mp h with rfl | h2
      · exact hx
      · intro hcon
        exact ih (x :: seen) a h2 (List.mem_cons_of_mem _ hcon)

/-- `firstOccsAux` emits no duplicates. -/
theorem firstOccsAux_nodup : ∀ (xs seen : List Int), (firstOccsAux seen xs).Nodup := by
  intro xs
  induction xs with
  | nil => intro seen; simp [firstOccsAux]
  | cons x xs ih =>
    intro seen
    by_cases hx : x ∈ seen
    · simpa only [firstOccsAux, if_pos hx] using ih seen
    · simp only [firstOccsAux, if_neg hx]
      refine List.nodup_cons.mpr ⟨?_, ih _⟩
      intro hcon
      exact not_seen_of_mem_firstOccsAux _ _ _ hcon (List.mem_cons_self _ _)

/-- The distinct descending size list is strictly descending. -/
theorem sortedDistinctDesc_pairwise (l : List Int) :
    (sortedDistinctDesc l).Pairwise fun a b => b < a := by
  haveI : IsTotal Int fun a b => b ≤ a := ⟨fun a b => le_total b a⟩
  haveI : IsTrans Int fun a b => b ≤ a := ⟨fun _ _ _ h1 h2 => le_trans h2 h1⟩
  have hs : (sortedDistinctDesc l).Pairwise fun a b => b ≤ a :=
    List.sorted_insertionSort _ _
  have hn : (sortedDistinctDesc l).Nodup :=
    (List.perm_insertionSort _ _).nodup_iff.mpr (firstOccsAux_nodup l [])
  exact hs.imp₂ (fun _ _ h1 h2 => lt_of_le_of_ne h1 (Ne.symm h2)) hn

/-- A level produced by the size map is one of H1, H2, H3. -/
theorem sizeToLevel_level (sizes : List Int) (s : Int) (lvl : String)
    (h : sizeToLevel sizes s = some lvl) : lvl = "H1" ∨ lvl = "H2" ∨ lvl = "H3" := by
  rcases sizes with _ | ⟨a, _ | ⟨b, _ | ⟨c, rest⟩⟩⟩
  · exact Option.noConfusion h
  · simp only [sizeToLevel] at h
    split_ifs at h
    · injection h with h2; subst h2; decide
  · simp only [sizeToLevel] at h
    split_ifs at h
    · injection h with h2; subst h2; decide
    · injection h with h2; subst h2; decide
  · simp only [sizeToLevel] at h
    split_ifs at h
    · injection h with h2; subst h2; decide
    · injection h with h2; subst h2; decide
    · injection h with h2; subst h2; decide

/-- On a strictly descending size list, a strictly larger size is mapped to a
level that is at most as deep. -/
theorem sizeToLevel_mono (sizes : List Int)
    (hp : sizes.Pairwise fun a b => b < a) (s1 s2 : Int) (l1 l2 : String)
    (h1 : sizeToLevel sizes s1 = some l1) (h2 : sizeToLevel sizes s2 = some l2)
    (hlt : s2 < s1) : levelNum l1 ≤ levelNum l2 := by
  rcases sizes with _ | ⟨a, _ | ⟨b, _ | ⟨c, rest⟩⟩⟩
  · exact Option.noConfusion h1
  · simp only [sizeToLevel] at h1 h2
    split_ifs at h1 h2 <;>
      first
        | exact Option.noConfusion h1
        | exact Option.noConfusion h2
        | (injection h1 with e1; injection h2 with e2; subst e1; subst e2;
           first | decide | omega)
  · have hba : b < a := by
      have := List.pairwise_cons.mp hp
      exact this.1 b (by simp)
    simp only [sizeToLevel] at h1 h2
    split_ifs at h1 h2 <;>
      first
        | exact Option.noConfusion h1
        | exact Option.noConfusion h2
        | (injection h1 with e1; injection h2 with e2; subst e1; subst e2;
           first | decide | omega)
  · have hcons := List.pairwise_cons.mp hp
    have hba : b < a := hcons.1 b (by simp)
    have hca : c < a := hcons.1 c (by simp)
    have hcons2 := List.pairwise_cons.mp hcons.2
    have hcb : c < b := hcons2.1 c (by simp)
    simp only [sizeToLevel] at h1 h2
    split_ifs at h1 h2 <;>
      first
        | exact Option.noConfusion h1
        | exact Option.noConfusion h2
        | (injection h1 with e1; injection h2 with e2; subst e1; subst e2;
           first | decide | omega)

/-- An item emitted by Strategy A carries the level assigned to its block's
size by the size map. -/
theorem strategyAItem_level (tp : List String) (us : List Int) (b : TextBlock)
    (i : OutlineItem) (h : strategyAItem tp us b = some i) :
    sizeToLevel us b.size = some i.level := by
  by_cases ht : b.text ∈ tp
  · simp [strategyAItem, ht] at h
  · cases hm : sizeToLevel us b.size with
    | none => simp [strategyAItem, if_neg ht, hm] at h
    | some lvl =>
      simp only [strategyAItem, if_neg ht, hm] at h
      split_ifs at h <;>
        first
          | exact Option.noConfusion h
          | (injection h with h2; subst h2; rfl)

/-- An item emitted by Strategy B for a block without a numbering prefix
carries the level assigned to its block's size by the size map. -/
theorem strategyBItem_level (hs : List Int) (b : TextBlock) (i : OutlineItem)
    (hnm : numberMatch b.text.toList = none) (h : strategyBItem hs b = some i) :
    sizeToLevel hs b.size = some i.level := by
  have hnm2 : numberMatch b.text.data = none := hnm
  cases hm : sizeToLevel hs b.size with
  | none => simp [strategyBItem, hnm, hnm2, hm] at h
  | some lvl =>
    simp only [strategyBItem, hnm, hnm2, hm] at h
    injection h with h2
    subst h2
    rfl

/-- C6: within a single run of Strategy A (first conjunct) or Strategy B
(second conjunct), any two emitted items whose levels were not overridden by
the numbering rule have levels ordered oppositely to their originating
sizes: the strictly larger size receives the numerically smaller-or-equal
heading depth.  (Strategy A has no numbering override at all.) -/
theorem C6_size_level_monotone :
    (∀ (blocks : List TextBlock) (tp : List String) (b1 b2 : TextBlock)
        (i1 i2 : OutlineItem),
        strategyAItem tp (uniqueSizes blocks) b1 = some i1 →
        strategyAItem tp (uniqueSizes blocks) b2 = some i2 →
        b2.size < b1.size → levelNum i1.level ≤ levelNum i2.level) ∧
    (∀ (blocks : List TextBlock) (tp : List String) (us : List Int)
        (b1 b2 : TextBlock) (i1 i2 : OutlineItem),
        strategyBItem (headingSizes blocks tp us) b1 = some i1 →
        strategyBItem (headingSizes blocks tp us) b2 = some i2 →
        numberMatch b1.text.toList = none → numberMatch b2.text.toList = none →
        b2.size < b1.size → levelNum i1.level ≤ levelNum i2.level) := by
  constructor
  · intro blocks tp b1 b2 i1 i2 h1 h2 hlt
    exact sizeToLevel_mono (uniqueSizes blocks) (sortedDistinctDesc_pairwise _)
      b1.size b2.size i1.level i2.level
      (strategyAItem_level tp _ b1 i1 h1) (strategyAItem_level tp _ b2 i2 h2) hlt
  · intro blocks tp us b1 b2 i1 i2 h1 h2 hn1 hn2 hlt
    exact sizeToLevel_mono (headingSizes blocks tp us) (sortedDistinctDesc_pairwise _)
      b1.size b2.size i1.level i2.level
      (strategyBItem_level _ b1 i1 hn1 h1) (strategyBItem_level _ b2 i2 hn2 h2) hlt

/-- Witness for C6: concrete instantiations of both conjuncts. -/
theorem C6_size_level_monotone_witness :
    (strategyAItem [] (uniqueSizes c6Blocks) c6Top = some ⟨"H1", "Top Heading", 0⟩ ∧
      strategyAItem [] (uniqueSizes c6Blocks) c6Sub = some ⟨"H2", "Sub Heading", 0⟩ ∧
      c6Sub.size < c6Top.size ∧ levelNum "H1" ≤ levelNum "H2") ∧
    (strategyBItem (headingSizes c10Blocks [] (uniqueSizes c10Blocks)) c10Alpha =
        some ⟨"H1", "Alpha", 0⟩ ∧
      strategyBItem (headingSizes c10Blocks [] (uniqueSizes c10Blocks)) c10Beta =
        some ⟨"H2", "Beta", 0⟩ ∧
      c10Beta.size < c10Alpha.size ∧ levelNum "H1" ≤ levelNum "H2") := by
  refine ⟨⟨by decide, by decide, by decide, ?_⟩, ⟨by decide, by decide, by decide, ?_⟩⟩
  · exact C6_size_level_monotone.1 c6Blocks [] c6Top c6Sub
      ⟨"H1", "Top Heading", 0⟩ ⟨"H2", "Sub Heading", 0⟩ (by decide) (by decide) (by decide)
  · exact C6_size_level_monotone.2 c10Blocks [] (uniqueSizes c10Blocks) c10Alpha c10Beta
      ⟨"H1", "Alpha", 0⟩ ⟨"H2", "Beta", 0⟩ (by decide) (by decide) (by decide) (by decide)
      (by decide)

/-- A numbering-prefixed heading candidate is emitted by Strategy B with the
override level, whatever its size (shared by the C5 and C10 theorems). -/
theorem numbered_candidate_emitted (blocks : List TextBlock) (tp : List String)
    (us : List Int) (b : TextBlock) (d : Nat)
    (hb : b ∈ headingCandidates blocks tp (bodySize blocks us))
    (hd : numberMatch b.text.toList = some d) :
    ({ level := "H" ++ toString (min (d + 1) 3), text := b.text, page := b.page } :
      OutlineItem) ∈ strategyB blocks tp us := by
  have hd2 : numberMatch b.text.data = some d := hd
  have hitem : strategyBItem (headingSizes blocks tp us) b =
      some { level := "H" ++ toString (min (d + 1) 3), text := b.text, page := b.page } := by
    simp [strategyBItem, hd, hd2]
  show _ ∈ (List.insertionSort pageYOrder
      (headingCandidates blocks tp (bodySize blocks us))).filterMap
      (strategyBItem (headingSizes blocks tp us))
  exact List.mem_filterMap.mpr ⟨b, (List.mem_insertionSort _).mpr hb, hitem⟩

/-- C5: in Strategy B, every heading candidate whose text matches the
numbering prefix pattern with `d` dots is emitted with level
`H<min(d+1, 3)>`, regardless of its font size. -/
theorem C5_numbering_override (blocks : List TextBlock) (tp : List String)
    (us : List Int) (b : TextBlock) (d : Nat)
    (hb : b ∈ headingCandidates blocks tp (bodySize blocks us))
    (hd : numberMatch b.text.toList = some d) :
    ({ level := "H" ++ toString (min (d + 1) 3), text := b.text, page := b.page } :
      OutlineItem) ∈ strategyB blocks tp us :=
  numbered_candidate_emitted blocks tp us b d hb hd

/-- Witness for C5: `"2.1 "` yields H2 and `"2.1.4.9 "` yields H3 on concrete
Strategy B inputs. -/
theorem C5_numbering_override_witness :
    (c5Num ∈ headingCandidates c5Blocks [] (bodySize c5Blocks (uniqueSizes c5Blocks)) ∧
      numberMatch c5Num.text.toList = some 1 ∧
      ({ level := "H2", text := "2.1 Overview", page := 0 } : OutlineItem)
        ∈ strategyB c5Blocks [] (uniqueSizes c5Blocks)) ∧
    (c5Deep ∈ headingCandidates c5Blocks [] (bodySize c5Blocks (uniqueSizes c5Blocks)) ∧
      numberMatch c5Deep.text.toList = some 3 ∧
      ({ level := "H3", text := "2.1.4.9 Deep", page := 0 } : OutlineItem)
        ∈ strategyB c5Blocks [] (uniqueSizes c5Blocks)) := by
  refine ⟨⟨by decide, by decide, ?_⟩, ⟨by decide, by decide, ?_⟩⟩
  · exact C5_numbering_override c5Blocks [] (uniqueSizes c5Blocks) c5Num 1
      (by decide) (by decide)
  · exact C5_numbering_override c5Blocks [] (uniqueSizes c5Blocks) c5Deep 3
      (by decide) (by decide)

/-- C10: a Strategy B heading candidate whose size is not among the top three
candidate sizes is still emitted when its text matches the numbering prefix
(with the override level), and its loop iteration emits nothing otherwise. -/
theorem C10_outside_top3 (blocks : List TextBlock) (tp : List String)
    (us : List Int) (b : TextBlock)
    (hb : b ∈ headingCandidates blocks tp (bodySize blocks us))
    (hnone : sizeToLevel (headingSizes blocks tp us) b.size = none) :
    (∀ d : Nat, numberMatch b.text.toList = some d →
      ({ level := "H" ++ toString (min (d + 1) 3), text := b.text, page := b.page } :
        OutlineItem) ∈ strategyB blocks tp us) ∧
    (numberMatch b.text.toList = none →
      strategyBItem (headingSizes blocks tp us) b = none) := by
  constructor
  · intro d hd
    exact numbered_candidate_emitted blocks tp us b d hb hd
  · intro hn
    have hn2 : numberMatch b.text.data = none := hn
    simp [strategyBItem, hn, hn2, hnone]

/-- Witness for C10: on `c10Blocks`, size 11 is outside the top three; the
numbered candidate is emitted as H2, the unnumbered one is dropped. -/
theorem C10_outside_top3_witness :
    (c10Delta ∈ headingCandidates c10Blocks [] (bodySize c10Blocks (uniqueSizes c10Blocks)) ∧
      sizeToLevel (headingSizes c10Blocks [] (uniqueSizes c10Blocks)) c10Delta.size = none ∧
      numberMatch c10Delta.text.toList = some 1 ∧
      ({ level := "H2", text := "3.2 Delta", page := 0 } : OutlineItem)
        ∈ strategyB c10Blocks [] (uniqueSizes c10Blocks)) ∧
    (c10Plain ∈ headingCandidates c10Blocks [] (bodySize c10Blocks (uniqueSizes c10Blocks)) ∧
      sizeToLevel (headingSizes c10Blocks [] (uniqueSizes c10Blocks)) c10Plain.size = none ∧
      numberMatch c10Plain.text.toList = none ∧
      strategyBItem (headingSizes c10Blocks [] (uniqueSizes c10Blocks)) c10Plain = none) := by
  refine ⟨⟨by decide, by decide, by decide, ?_⟩, ⟨by decide, by decide, by decide, ?_⟩⟩
  · exact (C10_outside_top3 c10Blocks [] (uniqueSizes c10Blocks) c10Delta
      (by decide) (by decide)).1 1 (by decide)
  · exact (C10_outside_top3 c10Blocks [] (uniqueSizes c10Blocks) c10Plain
      (by decide) (by decide)).2 (by decide)

/-- C8: for the empty block list the classifier returns the
`"Title Not Found"` default with an empty outline, for any page count. -/
theorem C8_empty_blocks (page_count : Nat) :
    classify_headings page_count [] = { title := "Title Not Found", outline := [] } :=
  rfl

/-- C1 (counterexample): on the spec's end-to-end example the classifier does
not return title `"Annual Report"` with the two-heading outline the claim
states — the graphical-document branch fires first. -/
theorem C1_counterexample :
    classify_headings 1 c1Blocks ≠
      { title := "Annual Report"
        outline := [{ level := "H1", text := "1. Introduction", page := 0 },
                    { level := "H1", text := "2. Methods", page := 0 }] } := by
  decide

/-- C1 (amended): on the example (one page, 3 < 40 blocks, no block over 15
words) the graphical path runs — Strategy A does not — so the result is the
empty title and the single H1 entry for the largest block. -/
theorem C1_graphical_result :
    is_graphical_doc 1 c1Blocks = true ∧
    classify_headings 1 c1Blocks =
      { title := "", outline := [{ level := "H1", text := "Annual Report", page := 0 }] } := by
  constructor
  · decide
  · decide

/-- C2 (counterexample): the outline merger is not idempotent — merging
`c2Items` produces a new `(text, page)` duplicate which only the second pass
removes. -/
theorem C2_merge_not_idempotent :
    outlineMerge (outlineMerge c2Items) ≠ outlineMerge c2Items := by
  decide

/-! ## The outline merger: idempotence analysis (claim C2) -/

/-- `String.toList` distributes over append. -/
theorem string_toList_append (a b : String) : (a ++ b).toList = a.toList ++ b.toList :=
  rfl

/-- Appending `" " ++ b` to a string with a non-whitespace character does not
change the leading whitespace run. -/
theorem extend_dropWhile (a b : String) (h : nonBlank a = true) :
    (a ++ " " ++ b).toList.dropWhile pySpace =
      a.toList.dropWhile pySpace ++ (' ' :: b.toList) := by
  have h1 : (a ++ " " ++ b).toList = a.toList ++ (' ' :: b.toList) := by
    rw [string_toList_append, string_toList_append]
    simp
  rw [h1, List.dropWhile_append]
  have h2 : (a.toList.dropWhile pySpace).isEmpty = false := by
    unfold nonBlank at h
    simpa using h
  rw [h2]
  simp

/-- Extending a non-blank text keeps it non-blank. -/
theorem nonBlank_extend (a b : String) (h : nonBlank a = true) :
    nonBlank (a ++ " " ++ b) = true := by
  unfold nonBlank
  rw [extend_dropWhile a b h]
  cases hc : a.toList.dropWhile pySpace with
  | nil => unfold nonBlank at h; rw [hc] at h; simp at h
  | cons c rest => simp

/-- Extending a non-blank text does not change whether its stripped form
starts with an ampersand. -/
theorem stripStartsAmp_extend (a b : String) (h : nonBlank a = true) :
    stripStartsAmp (a ++ " " ++ b) = stripStartsAmp a := by
  unfold stripStartsAmp
  rw [extend_dropWhile a b h]
  cases hc : a.toList.dropWhile pySpace with
  | nil => unfold nonBlank at h; rw [hc] at h; simp at h
  | cons c rest => simp

/-- `mergeCont` emits a head item with the page and level of the carried
item, and (for a non-blank carried text) the same ampersand status. -/
theorem mergeCont_head (l : List OutlineItem) :
    ∀ prev : OutlineItem, (∀ i ∈ l, nonBlank i.text = true) →
      ∃ h t, mergeCont prev l = h :: t ∧ h.page = prev.page ∧ h.level = prev.level ∧
        (nonBlank prev.text = true →
          stripStartsAmp h.text = stripStartsAmp prev.text ∧ nonBlank h.text = true) := by
  induction l with
  | nil => exact fun prev _ => ⟨prev, [], rfl, rfl, rfl, fun h => ⟨rfl, h⟩⟩
  | cons cur rest ih =>
    intro prev hl
    by_cases hm : contMergeable prev cur = true
    · obtain ⟨h, t, heq, hp, hlv, himp⟩ :=
        ih (extendText prev cur) fun i hi => hl i (List.mem_cons_of_mem _ hi)
      refine ⟨h, t, ?_, ?_, ?_, ?_⟩
      · simp only [mergeCont, if_pos hm]; exact heq
      · exact hp
      · exact hlv
      · intro hnb
        have hnb' : nonBlank (extendText prev cur).text = true :=
          nonBlank_extend _ _ hnb
        obtain ⟨hs, hn⟩ := himp hnb'
        refine ⟨?_, hn⟩
        rw [hs]
        exact stripStartsAmp_extend _ _ hnb
    · exact ⟨prev, mergeCont cur rest, by simp only [mergeCont, if_neg hm],
        rfl, rfl, fun h => ⟨rfl, h⟩⟩

/-- The output of `mergeCont` has no adjacent mergeable pair (given non-blank
texts, so that merging cannot create a fresh leading ampersand). -/
theorem mergeCont_chain (l : List OutlineItem) :
    ∀ prev : OutlineItem, (∀ i ∈ l, nonBlank i.text = true) →
      List.Chain' (fun p c => contMergeable p c = false) (mergeCont prev l) := by
  induction l with
  | nil => intro prev _; simp [mergeCont]
  | cons cur rest ih =>
    intro prev hl
    by_cases hm : contMergeable prev cur = true
    · simp only [mergeCont, if_pos hm]
      exact ih _ fun i hi => hl i (List.mem_cons_of_mem _ hi)
    · simp only [mergeCont, if_neg hm]
      obtain ⟨h, t, heq, hp, hlv, himp⟩ :=
        mergeCont_head rest cur fun i hi => hl i (List.mem_cons_of_mem _ hi)
      rw [heq]
      refine List.chain'_cons.mpr ⟨?_, ?_⟩
      · have hnb : nonBlank cur.text = true := hl cur (List.mem_cons_self _ _)
        obtain ⟨hs, _⟩ := himp hnb
        simp only [contMergeable] at hm ⊢
        rw [hp, hlv, hs]
        simpa using hm
      · have hc := ih cur fun i hi => hl i (List.mem_cons_of_mem _ hi)
        rw [heq] at hc
        exact hc

/-- On a list with no adjacent mergeable pair, `mergeCont` is the identity. -/
theorem mergeCont_of_chain (l : List OutlineItem) :
    ∀ prev : OutlineItem,
      List.Chain' (fun p c => contMergeable p c = false) (prev :: l) →
      mergeCont prev l = prev :: l := by
  induction l with
  | nil => intro prev _; rfl
  | cons cur rest ih =>
    intro prev hc
    obtain ⟨h1, h2⟩ := List.chain'_cons.mp hc
    have hne : ¬ contMergeable prev cur = true := by simp [h1]
    simp only [mergeCont, if_neg hne]
    rw [ih cur h2]

/-- Items kept by the de-duplication pass come from the input. -/
theorem dedupAux_subset (l : List OutlineItem) :
    ∀ (seen : List (String × Nat)) (i : OutlineItem), i ∈ dedupAux seen l → i ∈ l := by
  induction l with
  | nil => intro seen i h; simp [dedupAux] at h
  | cons j rest ih =>
    intro seen i h
    by_cases hj : (j.text, j.page) ∈ seen
    · simp only [dedupAux, if_pos hj] at h
      exact List.mem_cons_of_mem _ (ih seen i h)
    · simp only [dedupAux, if_neg hj] at h
      rcases List.mem_cons.mp h with rfl | h2
      · exact List.mem_cons_self _ _
      · exact List.mem_cons_of_mem _ (ih _ i h2)

/-- On a list with pairwise distinct `(text, page)` identifiers none of which
is already seen, the de-duplication pass is the identity. -/
theorem dedupAux_eq_self (l : List OutlineItem) :
    ∀ seen : List (String × Nat),
      (l.map fun i => (i.text, i.page)).Nodup →
      (∀ i ∈ l, ¬ (i.text, i.page) ∈ seen) → dedupAux seen l = l := by
  induction l with
  | nil => intro seen _ _; rfl
  | cons i rest ih =>
    intro seen hn hs
    simp only [List.map_cons, List.nodup_cons] at hn
    have hni : ¬ (i.text, i.page) ∈ seen := hs i (List.mem_cons_self _ _)
    simp only [dedupAux, if_neg hni]
    congr 1
    refine ih _ hn.2 ?_
    intro j hj hmem
    rcases List.mem_cons.mp hmem with heq | hseen
    · have : (j.text, j.page) ∈ rest.map fun i => (i.text, i.page) :=
        List.mem_map.mpr ⟨j, hj, rfl⟩
      rw [heq] at this
      exact hn.1 this
    · exact hs j (List.mem_cons_of_mem _ hj) hseen

/-- C2 (amended): the outline merger is idempotent on every candidate list
whose items' texts contain a non-whitespace character and whose merged
output has pairwise distinct `(text, page)` identifiers; in general the
continuation merge can create a new duplicate identifier, on which a second
pass differs from the first (see the counterexample). -/
theorem C2_merge_idempotent_of_nodup (x : List OutlineItem)
    (hb : ∀ i ∈ x, nonBlank i.text = true)
    (hn : ((outlineMerge x).map fun i => (i.text, i.page)).Nodup) :
    outlineMerge (outlineMerge x) = outlineMerge x := by
  have hd : ∀ i ∈ dedupOutline x, nonBlank i.text = true := fun i hi =>
    hb i (dedupAux_subset x [] i hi)
  have hchain : List.Chain' (fun p c => contMergeable p c = false) (outlineMerge x) := by
    show List.Chain' _ (mergeContinuations (dedupOutline x))
    cases hx : dedupOutline x with
    | nil => simp [mergeContinuations]
    | cons p t =>
      show List.Chain' _ (mergeCont p t)
      refine mergeCont_chain t p ?_
      intro i hi
      exact hd i (by rw [hx]; exact List.mem_cons_of_mem _ hi)
  show mergeContinuations (dedupAux [] (outlineMerge x)) = outlineMerge x
  rw [show dedupAux [] (outlineMerge x) = outlineMerge x from
    dedupAux_eq_self _ [] hn (by simp)]
  cases hm : outlineMerge x with
  | nil => rfl
  | cons p t =>
    show mergeCont p t = p :: t
    refine mergeCont_of_chain t p ?_
    rw [← hm]
    exact hchain

/-- Witness for the amended C2 on a benign concrete candidate list. -/
theorem C2_merge_idempotent_witness :
    (∀ i ∈ c2WitnessItems, nonBlank i.text = true) ∧
    ((outlineMerge c2WitnessItems).map fun i => (i.text, i.page)).Nodup ∧
    outlineMerge (outlineMerge c2WitnessItems) = outlineMerge c2WitnessItems :=
  ⟨by decide, by decide, C2_merge_idempotent_of_nodup c2WitnessItems (by decide) (by decide)⟩

/-! ## The noise filter characterisation (claim C4) -/

/-- `protected_texts` equals the texts of the maximal-size page-0 blocks even
without the emptiness guard (an empty page 0 yields an empty list anyway). -/
theorem protectedTexts_eq (blocks : List TextBlock) :
    protectedTexts blocks = (maxSizePage0Blocks blocks).map fun b => b.text := by
  unfold protectedTexts
  cases hcase : (firstPageBlocks blocks).isEmpty with
  | false => simp
  | true =>
    have hfl : firstPageBlocks blocks = [] := by
      simpa [List.isEmpty_iff] using hcase
    simp [maxSizePage0Blocks, hfl]

/-- Membership in the computed `protected_texts` list coincides with the
claim's description of protection. -/
theorem mem_protectedTexts (blocks : List TextBlock) (t : String) :
    t ∈ protectedTexts blocks ↔ protectedTextC4 blocks t := by
  rw [protectedTexts_eq]
  unfold protectedTextC4 maxSizePage0Blocks firstPageBlocks
  simp only [List.mem_map, List.mem_filter, decide_eq_true_eq]
  constructor
  · rintro ⟨b, ⟨⟨hb, h0⟩, hsz⟩, ht⟩
    exact ⟨b, hb, h0, hsz, ht⟩
  · rintro ⟨b, hb, h0, hsz, ht⟩
    exact ⟨b, ⟨⟨hb, h0⟩, hsz⟩, ht⟩

/-- Membership in the computed `texts_to_remove` list coincides with the
claim's description of marking. -/
theorem mem_removedTexts (blocks : List TextBlock) (t : String) :
    t ∈ removedTexts blocks ↔ markedTextC4 blocks t := by
  unfold removedTexts markedTextC4
  simp only [List.mem_map, List.mem_filter, decide_eq_true_eq]
  constructor
  · rintro ⟨b, ⟨hb, hcond⟩, ht⟩
    exact ⟨b, hb, ht,
      fun hp => hcond.1 ((mem_protectedTexts blocks b.text).mpr hp), hcond.2⟩
  · rintro ⟨b, hb, ht, hnp, hdir⟩
    exact ⟨b, ⟨hb,
      ⟨fun hmem => hnp ((mem_protectedTexts blocks b.text).mp hmem), hdir⟩⟩, ht⟩

/-- C4: on a non-empty block list, the noise filter keeps exactly the blocks
whose text is not marked — a text is marked when some unprotected block
carrying it has a present, non-horizontal direction, protection being
text-equality with a maximal-size page-0 block; when nothing is marked the
filter keeps every block. -/
theorem C4_noise_filter (blocks : List TextBlock) (hne : blocks ≠ []) :
    filter_non_content blocks =
      blocks.filter fun b => decide (¬ markedTextC4 blocks b.text) := by
  have hne' : blocks.isEmpty = false := by
    simpa [List.isEmpty_iff] using hne
  unfold filter_non_content
  rw [hne']
  simp only [Bool.false_eq_true, if_false]
  by_cases hr : (removedTexts blocks).isEmpty
  · rw [if_pos hr]
    symm
    rw [List.filter_eq_self]
    intro b hb
    rw [decide_eq_true_eq]
    intro hmarked
    have hmem : b.text ∈ removedTexts blocks :=
      (mem_removedTexts blocks b.text).mpr hmarked
    rw [List.isEmpty_iff] at hr
    rw [hr] at hmem
    cases hmem
  · rw [if_neg hr]
    apply List.filter_congr
    intro b hb
    rw [decide_eq_decide]
    exact not_congr (mem_removedTexts blocks b.text)

/-- Witness for C4: the watermark scenario — both rotated "CONFIDENTIAL"
occurrences (pages 0 and 3) are removed, the protected title block is kept. -/
theorem C4_noise_filter_witness :
    c4Scenario ≠ [] ∧ filter_non_content c4Scenario = [c4Title] := by
  refine ⟨by decide, ?_⟩
  rw [C4_noise_filter c4Scenario (by decide)]
  decide

/-! ## Graphical-document detection (claim C3) -/

/-- C3 (counterexample): at `(page_count, blocks) = (1, [])` the claim's
graphical condition holds (and even the code's flag computes `true`), yet the
classifier returns the `"Title Not Found"` default instead of the empty
title with a single H1 entry. -/
theorem C3_counterexample :
    graphicalCondC3 1 [] ∧ is_graphical_doc 1 [] = true ∧
    classify_headings 1 [] = { title := "Title Not Found", outline := [] } := by
  refine ⟨⟨rfl, by decide, Or.inl ?_⟩, by decide, rfl⟩
  intro b hb
  cases hb

/-- The empty paragraph filter corresponds to the claim's "no block has more
than 15 words". -/
theorem paragraph_filter_empty_iff (blocks : List TextBlock) :
    (blocks.filter fun b => 15 < wordCount b.text).isEmpty = true ↔
      ∀ b ∈ blocks, wordCount b.text ≤ 15 := by
  rw [List.isEmpty_iff, List.filter_eq_nil_iff]
  constructor
  · intro h b hb
    have := h b hb
    simpa [Nat.not_lt] using this
  · intro h b hb
    simp [Nat.not_lt, h b hb]

/-- C3 (amended): for non-empty block lists, the code's graphical flag
coincides with the claim's condition, and when it holds the classifier
returns the empty title with exactly one H1 entry for a maximal-size block. -/
theorem C3_graphical_amended (page_count : Nat) (blocks : List TextBlock)
    (hne : blocks ≠ []) :
    (is_graphical_doc page_count blocks = true ↔ graphicalCondC3 page_count blocks) ∧
    (is_graphical_doc page_count blocks = true →
      ∃ b ∈ blocks, (∀ b2 ∈ blocks, b2.size ≤ b.size) ∧
        classify_headings page_count blocks =
          { title := ""
            outline := [{ level := "H1", text := clean_text b.text, page := b.page }] }) := by
  constructor
  · by_cases hpc : page_count = 1
    · subst hpc
      unfold is_graphical_doc graphicalCondC3
      rw [if_pos rfl, decide_eq_true_eq]
      constructor
      · rintro ⟨h1, h2⟩
        exact ⟨rfl, h1, h2.imp (fun he => (paragraph_filter_empty_iff blocks).mp he) id⟩
      · rintro ⟨_, h1, h2⟩
        exact ⟨h1, h2.imp (fun he => (paragraph_filter_empty_iff blocks).mpr he) id⟩
    · unfold is_graphical_doc graphicalCondC3
      rw [if_neg hpc]
      simp [hpc]
  · intro hg
    have hne2 : blocks.isEmpty = false := by
      simpa [List.isEmpty_iff] using hne
    haveI : IsTotal TextBlock sizeDescOrder := ⟨fun a b => le_total b.size a.size⟩
    haveI : IsTrans TextBlock sizeDescOrder := ⟨fun _ _ _ h1 h2 => le_trans h2 h1⟩
    cases hs : List.insertionSort sizeDescOrder blocks with
    | nil =>
      exfalso
      have hperm := List.perm_insertionSort sizeDescOrder blocks
      rw [hs] at hperm
      exact hne hperm.nil_eq.symm
    | cons b0 rest =>
      refine ⟨b0, ?_, ?_, ?_⟩
      · have hmem : b0 ∈ List.insertionSort sizeDescOrder blocks := by
          rw [hs]
          exact List.mem_cons_self _ _
        exact (List.mem_insertionSort _).mp hmem
      · intro b2 hb2
        have hmem : b2 ∈ List.insertionSort sizeDescOrder blocks :=
          (List.mem_insertionSort _).mpr hb2
        rw [hs] at hmem
        rcases List.mem_cons.mp hmem with rfl | h2
        · exact le_refl _
        · have hsorted := List.sorted_insertionSort sizeDescOrder blocks
          rw [hs] at hsorted
          exact List.rel_of_sorted_cons hsorted b2 h2
      · simp [classify_headings, hne2, hg, hs]

/-- Witness for the amended C3 at a one-block poster. -/
theorem C3_graphical_amended_witness :
    c3WitnessBlocks ≠ [] ∧
    (is_graphical_doc 1 c3WitnessBlocks = true ↔ graphicalCondC3 1 c3WitnessBlocks) ∧
    (is_graphical_doc 1 c3WitnessBlocks = true →
      ∃ b ∈ c3WitnessBlocks, (∀ b2 ∈ c3WitnessBlocks, b2.size ≤ b.size) ∧
        classify_headings 1 c3WitnessBlocks =
          { title := ""
            outline := [{ level := "H1", text := clean_text b.text, page := b.page }] }) :=
  ⟨by decide, C3_graphical_amended 1 c3WitnessBlocks (by decide)⟩

/-! ## Title extraction under permutation (claim C7) -/

/-- C7 (counterexample): with two maximal-size page-0 blocks sharing the same
`bbox.y0`, the stable sort preserves input order, so permuting the input
changes the extracted title. -/
theorem C7_counterexample :
    List.Perm [c7BlockA, c7BlockB] [c7BlockB, c7BlockA] ∧
    (classify_headings 2 [c7BlockA, c7BlockB]).title = "A B" ∧
    (classify_headings 2 [c7BlockB, c7BlockA]).title = "B A" :=
  ⟨List.Perm.swap c7BlockB c7BlockA [], by decide, by decide⟩

/-- C7 (amended): when the maximal-size page-0 blocks have pairwise distinct
`bbox.y0`, the extracted title is permutation-invariant (ascending `y0`
determines the concatenation order uniquely). -/
theorem C7_title_perm_invariant (blocks blocks2 : List TextBlock)
    (hperm : blocks.Perm blocks2)
    (hy : (maxSizePage0Blocks blocks).Pairwise fun a b => a.bbox.y0 ≠ b.bbox.y0) :
    docTitle blocks = docTitle blocks2 := by
  have hfp : (firstPageBlocks blocks).Perm (firstPageBlocks blocks2) :=
    hperm.filter _
  have hmax : page0MaxSize blocks = page0MaxSize blocks2 :=
    listMax_perm (hfp.map _)
  have hmb : (maxSizePage0Blocks blocks).Perm (maxSizePage0Blocks blocks2) := by
    unfold maxSizePage0Blocks
    rw [← hmax]
    exact hfp.filter _
  haveI : IsTotal TextBlock fun a b => a.bbox.y0 ≤ b.bbox.y0 :=
    ⟨fun a b => le_total _ _⟩
  haveI : IsTrans TextBlock fun a b => a.bbox.y0 ≤ b.bbox.y0 :=
    ⟨fun _ _ _ h1 h2 => le_trans h1 h2⟩
  have hp1 := List.perm_insertionSort
    (fun a b : TextBlock => a.bbox.y0 ≤ b.bbox.y0) (maxSizePage0Blocks blocks)
  have hp2 := List.perm_insertionSort
    (fun a b : TextBlock => a.bbox.y0 ≤ b.bbox.y0) (maxSizePage0Blocks blocks2)
  have hy2 : (maxSizePage0Blocks blocks2).Pairwise fun a b => a.bbox.y0 ≠ b.bbox.y0 :=
    (hmb.pairwise_iff fun h => Ne.symm h).mp hy
  have hst1 : (titleBlocksSorted blocks).Pairwise fun a b => a.bbox.y0 < b.bbox.y0 := by
    have hys : (titleBlocksSorted blocks).Pairwise fun a b => a.bbox.y0 ≠ b.bbox.y0 :=
      (hp1.pairwise_iff fun h => Ne.symm h).mpr hy
    exact (List.sorted_insertionSort _ _).imp₂
      (fun _ _ hle hne => lt_of_le_of_ne hle hne) hys
  have hst2 : (titleBlocksSorted blocks2).Pairwise fun a b => a.bbox.y0 < b.bbox.y0 := by
    have hys : (titleBlocksSorted blocks2).Pairwise fun a b => a.bbox.y0 ≠ b.bbox.y0 :=
      (hp2.pairwise_iff fun h => Ne.symm h).mpr hy2
    exact (List.sorted_insertionSort _ _).imp₂
      (fun _ _ hle hne => lt_of_le_of_ne hle hne) hys
  have heq : titleBlocksSorted blocks = titleBlocksSorted blocks2 := by
    haveI : IsAntisymm TextBlock fun a b => a.bbox.y0 < b.bbox.y0 :=
      ⟨fun _ _ h1 h2 => absurd (lt_trans h1 h2) (lt_irrefl _)⟩
    exact List.eq_of_perm_of_sorted (hp1.trans (hmb.trans hp2.symm)) hst1 hst2
  have hfe : (firstPageBlocks blocks).isEmpty = (firstPageBlocks blocks2).isEmpty := by
    cases hb : (firstPageBlocks blocks).isEmpty with
    | true =>
      have h1 : firstPageBlocks blocks = [] := List.isEmpty_iff.mp hb
      rw [h1] at hfp
      exact (List.isEmpty_iff.mpr hfp.nil_eq.symm).symm
    | false =>
      cases hb2 : (firstPageBlocks blocks2).isEmpty with
      | true =>
        have h2 : firstPageBlocks blocks2 = [] := List.isEmpty_iff.mp hb2
        rw [h2] at hfp
        rw [List.isEmpty_iff.mpr hfp.symm.nil_eq.symm] at hb
        exact hb.symm
      | false => rfl
  unfold docTitle
  rw [← hfe, heq]

/-- Witness for the amended C7: distinct `y0` values make the title
independent of the input order. -/
theorem C7_title_perm_invariant_witness :
    List.Perm [c7WitnessP, c7WitnessQ] [c7WitnessQ, c7WitnessP] ∧
    ((maxSizePage0Blocks [c7WitnessP, c7WitnessQ]).Pairwise
      fun a b => a.bbox.y0 ≠ b.bbox.y0) ∧
    docTitle [c7WitnessP, c7WitnessQ] = docTitle [c7WitnessQ, c7WitnessP] :=
  ⟨List.Perm.swap c7WitnessQ c7WitnessP [], by decide,
    C7_title_perm_invariant [c7WitnessP, c7WitnessQ] [c7WitnessQ, c7WitnessP]
      (List.Perm.swap c7WitnessQ c7WitnessP []) (by decide)⟩

/-! ## Exception freedom (claim C9) -/

/-- `max()` succeeds on a non-empty list. -/
theorem listMaxE_eq (l : List Int) (h : l ≠ []) : listMaxE l = some (listMax l) := by
  cases l with
  | nil => exact absurd rfl h
  | cons x xs => rfl

/-- The protected-text computation never fails. -/
theorem protectedTextsE_eq (blocks : List TextBlock) :
    protectedTextsE blocks = some (protectedTexts blocks) := by
  unfold protectedTextsE protectedTexts
  cases hf : (firstPageBlocks blocks).isEmpty with
  | true => rfl
  | false =>
    have hne : ((firstPageBlocks blocks).map fun b => b.size) ≠ [] := by
      intro hcon
      rw [List.map_eq_nil_iff] at hcon
      rw [hcon] at hf
      simp at hf
    rw [listMaxE_eq _ hne]
    rfl

/-- The noise filter never fails. -/
theorem filter_non_contentE_eq (blocks : List TextBlock) :
    filter_non_contentE blocks = some (filter_non_content blocks) := by
  unfold filter_non_contentE filter_non_content
  cases hb : blocks.isEmpty with
  | true => rfl
  | false =>
    rw [protectedTextsE_eq]
    show (if (removedTexts blocks).isEmpty then some blocks
          else some (blocks.filter fun b => ¬ b.text ∈ removedTexts blocks)) =
      some (if (removedTexts blocks).isEmpty then blocks
            else blocks.filter fun b => ¬ b.text ∈ removedTexts blocks)
    by_cases hr : (removedTexts blocks).isEmpty
    · rw [if_pos hr, if_pos hr]
    · rw [if_neg hr, if_neg hr]

/-- Document-type detection never fails: the division is only reached when a
paragraph block exists, which forces a non-zero total block count. -/
theorem is_graphical_docE_eq (page_count : Nat) (blocks : List TextBlock) :
    is_graphical_docE page_count blocks = some (is_graphical_doc page_count blocks) := by
  unfold is_graphical_docE is_graphical_doc
  by_cases hpc : page_count = 1
  · rw [if_pos hpc, if_pos hpc]
    by_cases h40 : blocks.length < 40
    · rw [if_pos h40]
      by_cases hpe : (blocks.filter fun b => 15 < wordCount b.text).isEmpty
      · rw [if_pos hpe]
        congr 1
        symm
        rw [decide_eq_true_eq]
        exact ⟨h40, Or.inl hpe⟩
      · rw [if_neg hpe]
        by_cases h0 : blocks.length = 0
        · exfalso
          apply hpe
          have hnil : blocks = [] := List.length_eq_zero.mp h0
          rw [hnil]
          rfl
        · rw [if_neg h0]
          congr 1
          rw [decide_eq_decide]
          constructor
          · intro hfrac
            exact ⟨h40, Or.inr hfrac⟩
          · rintro ⟨_, hempty | hfrac⟩
            · exact absurd hempty hpe
            · exact hfrac
    · rw [if_neg h40]
      congr 1
      symm
      rw [decide_eq_false_iff_not]
      rintro ⟨h, _⟩
      exact h40 h
  · rw [if_neg hpc, if_neg hpc]

/-- Title extraction never fails. -/
theorem docTitleE_eq (blocks : List TextBlock) :
    docTitleE blocks = some (docTitle blocks) := by
  unfold docTitleE docTitle
  cases hf : (firstPageBlocks blocks).isEmpty with
  | true => rfl
  | false =>
    have hne : ((firstPageBlocks blocks).map fun b => b.size) ≠ [] := by
      intro hcon
      rw [List.map_eq_nil_iff] at hcon
      rw [hcon] at hf
      simp at hf
    rw [listMaxE_eq _ hne]
    rfl

/-- The body-size computation never fails. -/
theorem bodySizeE_eq (blocks : List TextBlock) (us : List Int) :
    bodySizeE blocks us = some (bodySize blocks us) := by
  unfold bodySizeE bodySize
  cases hp : paraSizes blocks with
  | nil =>
    cases hu : us.getLast? with
    | none =>
      have h0 : us = [] := List.getLast?_eq_none_iff.mp hu
      subst h0
      rfl
    | some s =>
      rcases us with _ | ⟨a, t⟩
      · simp at hu
      · rfl
  | cons p ps => rfl

/-- Strategy B never fails. -/
theorem strategyBE_eq (blocks : List TextBlock) (tp : List String) (us : List Int) :
    strategyBE blocks tp us = some (strategyB blocks tp us) := by
  unfold strategyBE strategyB
  rw [bodySizeE_eq]
  rfl

/-- The classifier never fails. -/
theorem classify_headingsE_eq (page_count : Nat) (blocks : List TextBlock) :
    classify_headingsE page_count blocks = some (classify_headings page_count blocks) := by
  unfold classify_headingsE classify_headings
  cases hb : blocks.isEmpty with
  | true => rfl
  | false =>
    rw [is_graphical_docE_eq]
    cases hg : is_graphical_doc page_count blocks with
    | true =>
      cases hs : List.insertionSort sizeDescOrder blocks with
      | nil =>
        exfalso
        have hperm := List.perm_insertionSort sizeDescOrder blocks
        rw [hs] at hperm
        have hnil : blocks = [] := hperm.nil_eq.symm
        rw [hnil] at hb
        simp at hb
      | cons b0 rest => rfl
    | false =>
      rw [docTitleE_eq]
      simp only [Option.bind_eq_bind, Option.some_bind]
      by_cases hcnt : 1 < (uniqueSizes blocks).length ∧ (uniqueSizes blocks).length ≤ 6
      · rw [if_pos hcnt, if_pos hcnt]
        rfl
      · rw [if_neg hcnt, if_neg hcnt, strategyBE_eq]
        rfl

/-- C9: the classification core is total — the `Option`-threaded duplicates,
which return `none` exactly where the Python code would raise (empty-sequence
`max()`/`most_common(1)[0]`/indexing and zero division), always return `some`
of the pure functions' results, on every input including empty lists, absent
directions and arbitrary texts and sizes. -/
theorem C9_classifier_total :
    (∀ blocks : List TextBlock,
      filter_non_contentE blocks = some (filter_non_content blocks)) ∧
    (∀ (page_count : Nat) (blocks : List TextBlock),
      classify_headingsE page_count blocks = some (classify_headings page_count blocks)) :=
  ⟨filter_non_contentE_eq, classify_headingsE_eq⟩
